import Mathlib

/-!
Shallow embedding of the task-management subsystem (Storage, Validation,
TaskManager, ReminderService) of the task manager application.

Modelling conventions:
* Timestamps (`createdAt`, `updatedAt`, `reminderTime`, `dueDate`, and the
  scan time `now`) are epoch milliseconds (`Int`).  The source keeps them as
  ISO strings / `Date` objects and compares them through `getTime()`; every
  timestamp that reaches a comparison is a valid date, so the
  `isNaN(date.getTime())` branches of the validator never fire in the model.
* A nullable field is an `Option`; in an update payload an absent key is the
  outer `none` and an explicit `null` is `some none`.  JavaScript truthiness
  of a reminder-time value (a non-empty datetime string) is `Option.isSome`.
* Each mutating operation takes the stored collection (the parsed blob) and
  returns the result paired with the collection as left in storage: the
  source only calls `saveTasks` after validation succeeds, so on a failure
  the input collection is returned unchanged.
* Thrown errors are classified by the specification's taxonomy
  (`ValidationError` / `NotFoundError` / `StorageError`), plus `typeError`
  for a raw JavaScript `TypeError` (e.g. calling `toLowerCase` on `null`);
  the `Failed to <op>: ...` message wrapping is dropped.
-/

namespace TaskApp

/-- Error taxonomy of the system (spec section 7), plus raw type errors. -/
inductive TMError where
  | validationError (msgs : List String)
  | notFoundError
  | storageError (msg : String)
  | typeError (msg : String)
deriving DecidableEq

/-- A task record as built by `TaskManager.addTask` / `updateTask`. -/
structure Task where
  id : String
  title : String
  description : Option String
  status : String
  priority : String
  dueDate : Option Int
  dueTime : Option String
  reminderEnabled : Bool
  reminderTime : Option Int
  reminderMinutes : Int
  reminderNotified : Bool
  tags : List String
  createdAt : Int
  updatedAt : Int
deriving DecidableEq

/-- Input payload of `TaskManager.addTask` (`taskData` in the source). -/
structure TaskInput where
  title : String
  description : Option String := none
  status : Option String := none
  priority : Option String := none
  dueDate : Option Int := none
  dueTime : Option String := none
  reminderEnabled : Bool := false
  reminderTime : Option Int := none
  reminderMinutes : Option Int := none
  tags : Option (List String) := none
deriving DecidableEq

/-- Update payload of `TaskManager.updateTask` (`updates` in the source).
For each field the outer `none` means the key is absent from the payload and
`some v` means it is present with value `v`; for nullable fields `some none`
is an explicit `null`.  `tags := some none` models a present `tags` key that
is not an array.  The payload may also carry `id` / `createdAt` /
`updatedAt` keys; the source's spread merges them, but the explicit
properties written after the spread override all three, so they are
recorded here only to witness that the result does not depend on them. -/
structure TaskUpdates where
  id : Option String := none
  title : Option String := none
  description : Option (Option String) := none
  status : Option String := none
  priority : Option String := none
  dueDate : Option (Option Int) := none
  dueTime : Option (Option String) := none
  reminderEnabled : Option Bool := none
  reminderTime : Option (Option Int) := none
  reminderMinutes : Option Int := none
  reminderNotified : Option Bool := none
  tags : Option (Option (List String)) := none
  createdAt : Option Int := none
  updatedAt : Option Int := none
deriving DecidableEq

instance {ε α : Type} [DecidableEq ε] [DecidableEq α] : DecidableEq (Except ε α) :=
  fun a b =>
    match a, b with
    | .ok x, .ok y =>
      if h : x = y then isTrue (by rw [h]) else isFalse (fun hc => h (Except.ok.inj hc))
    | .error x, .error y =>
      if h : x = y then isTrue (by rw [h]) else isFalse (fun hc => h (Except.error.inj hc))
    | .ok _, .error _ => isFalse (fun hc => Except.noConfusion hc)
    | .error _, .ok _ => isFalse (fun hc => Except.noConfusion hc)

/-- Executable model of JavaScript `trim` over the character list.  The
library `String.trim` is byte-position based and does not reduce in the
kernel, so the embedding uses this equivalent form throughout. -/
def jsTrim (s : String) : String :=
  ⟨((s.toList.dropWhile Char.isWhitespace).reverse.dropWhile Char.isWhitespace).reverse⟩

/-- Executable model of JavaScript `toLowerCase` over the character
list. -/
def jsToLower (s : String) : String :=
  ⟨s.toList.map Char.toLower⟩

/-- Check of the `^([01]?[0-9]|2[0-3]):[0-5][0-9]$` due-time pattern. -/
def dueTimeFormatOk (s : String) : Bool :=
  match s.toList with
  | [h, ':', m1, m2] =>
      h.isDigit && ((decide ('0' ≤ m1) && decide (m1 ≤ '5')) && m2.isDigit)
  | [h1, h2, ':', m1, m2] =>
      (((h1 == '0' || h1 == '1') && h2.isDigit) ||
        (h1 == '2' && (decide ('0' ≤ h2) && decide (h2 ≤ '3')))) &&
      ((decide ('0' ≤ m1) && decide (m1 ≤ '5')) && m2.isDigit)
  | _ => false

/-- The valid status values. -/
def validStatuses : List String := ["pending", "in-progress", "completed"]

/-- The valid priority values. -/
def validPriorities : List String := ["low", "medium", "high"]

/-- Embedding of `Validation.validateTask`: the collected error list, in
source order.  In the model `title` is always a string (the
`typeof task.title !== 'string'` disjunct merges with the falsiness check,
which for a string means emptiness), `description` is a string whenever
present, timestamps are always valid dates, `reminderMinutes` is always a
number, and `tags` is always an array of strings, so those type-check
branches never fire. -/
def Validation.validateTask (t : Task) : List String :=
  (if t.title = "" then ["Title is required and must be a string"]
   else if (jsTrim t.title).length = 0 then ["Title cannot be empty"]
   else if t.title.length > 100 then ["Title cannot exceed 100 characters"]
   else []) ++
  (match t.description with
   | some d => if d.length > 500 then ["Description cannot exceed 500 characters"] else []
   | none => []) ++
  (if t.status ≠ "" && !validStatuses.contains t.status then
     ["Status must be one of: pending, in-progress, completed"]
   else []) ++
  (if t.priority ≠ "" && !validPriorities.contains t.priority then
     ["Priority must be one of: low, medium, high"]
   else []) ++
  (match t.dueTime with
   | some s => if !dueTimeFormatOk s then ["Due time must be in HH:MM format"] else []
   | none => []) ++
  (if t.reminderEnabled && decide (t.reminderMinutes < 0) then
     ["Reminder minutes must be a non-negative number"]
   else [])

/-- Embedding of `Validation.validateSearchQuery`: only a value that is
neither a string nor `null`/`undefined` is rejected. -/
inductive QueryInput where
  | str (s : String)
  | null
  | undef
  | nonString
deriving DecidableEq

/-- Error list of `Validation.validateSearchQuery`. -/
def Validation.validateSearchQuery (q : QueryInput) : List String :=
  match q with
  | .nonString => ["Search query must be a string"]
  | _ => []

/-- Raw payload stored under the storage key: either text that parses to a
task list or malformed text on which `JSON.parse` throws. -/
inductive RawPayload where
  | parsable (tasks : List Task)
  | malformed
deriving DecidableEq

/-- The storage medium: either unavailable (`getItem`/`setItem` throw) or a
store holding an optional payload under the key (`none` = absent key). -/
inductive Medium where
  | unavailable
  | store (payload : Option RawPayload)
deriving DecidableEq

/-- Embedding of `Storage.getTasks`: an absent key yields `[]`; a malformed
payload makes `JSON.parse` throw inside the `try`, so the promise is
rejected, exactly as when the medium itself is unavailable. -/
def Storage.getTasks : Medium → Except TMError (List Task)
  | .unavailable => .error (.storageError "Failed to read tasks from storage")
  | .store none => .ok []
  | .store (some (.parsable tasks)) => .ok tasks
  | .store (some .malformed) => .error (.storageError "Failed to read tasks from storage")

/-- Embedding of `Storage.saveTasks`: serializes the collection under the
key; a write failure is propagated as a rejection. -/
def Storage.saveTasks (tasks : List Task) : Medium → Except TMError Medium
  | .unavailable => .error (.storageError "Failed to save tasks to storage")
  | .store _ => .ok (.store (some (.parsable tasks)))

/-- JavaScript `v || d` for an optional string (empty string is falsy). -/
def jsOrString (v : Option String) (d : String) : String :=
  match v with
  | some s => if s = "" then d else s
  | none => d

/-- The task record built by `TaskManager.addTask` from `taskData`, before
validation.  `nowMs` is the creation instant, `newId` the generated id. -/
def TaskManager.buildTask (nowMs : Int) (newId : String) (d : TaskInput) : Task :=
  { id := newId
    title := jsTrim d.title
    description := some (match d.description with
      | some s => if jsTrim s = "" then "" else jsTrim s
      | none => "")
    status := jsOrString d.status "pending"
    priority := jsOrString d.priority "medium"
    dueDate := d.dueDate
    dueTime := match d.dueTime with
      | some s => if s = "" then none else some s
      | none => none
    reminderEnabled := d.reminderEnabled
    reminderTime := d.reminderTime
    reminderMinutes := d.reminderMinutes.getD 0
    reminderNotified := false
    tags := match d.tags with
      | some ts => (ts.map jsTrim).filter (fun t => t ≠ "")
      | none => []
    createdAt := nowMs
    updatedAt := nowMs }

/-- Embedding of `TaskManager.addTask`: build, validate, and only on
success append and persist; on failure the stored collection is the input
one, since `saveTasks` is never reached. -/
def TaskManager.addTask (nowMs : Int) (newId : String) (d : TaskInput)
    (tasks : List Task) : Except TMError Task × List Task :=
  let task := TaskManager.buildTask nowMs newId d
  let validation := Validation.validateTask task
  if validation.isEmpty then (.ok task, tasks ++ [task])
  else (.error (.validationError validation), tasks)

/-- Embedding of `tasks.find(task => task.id === id)`. -/
def TaskManager.findTask (id : String) : List Task → Option Task
  | [] => none
  | t :: rest => if t.id == id then some t else TaskManager.findTask id rest

/-- The merged record built by `TaskManager.updateTask` from the stored
record and the update payload: the spread of `updates` over the record,
with `id`, `createdAt` and `updatedAt` overridden by the explicit
properties, then the reminder-notification reset and the tags
normalization.  The reset fires only when the payload's `reminderTime` is
truthy (present and non-null) and differs from the stored value. -/
def TaskManager.mergeUpdate (nowMs : Int) (old : Task) (u : TaskUpdates) : Task :=
  let merged : Task :=
    { id := old.id
      title := u.title.getD old.title
      description := match u.description with
        | some v => v
        | none => old.description
      status := u.status.getD old.status
      priority := u.priority.getD old.priority
      dueDate := match u.dueDate with
        | some v => v
        | none => old.dueDate
      dueTime := match u.dueTime with
        | some v => v
        | none => old.dueTime
      reminderEnabled := u.reminderEnabled.getD old.reminderEnabled
      reminderTime := match u.reminderTime with
        | some v => v
        | none => old.reminderTime
      reminderMinutes := u.reminderMinutes.getD old.reminderMinutes
      reminderNotified := u.reminderNotified.getD old.reminderNotified
      tags := match u.tags with
        | some (some ts) => (ts.map jsTrim).filter (fun t => t ≠ "")
        | some none => []
        | none => old.tags
      createdAt := old.createdAt
      updatedAt := nowMs }
  if (match u.reminderTime with
      | some (some rt) => decide (some rt ≠ old.reminderTime)
      | _ => false)
  then { merged with reminderNotified := false }
  else merged

/-- Embedding of `TaskManager.updateTask`: locate the first record with the
given id (`findIndex`), merge, validate, and only on success replace the
record and persist; on a miss or a validation failure the stored collection
is unchanged. -/
def TaskManager.updateTask (nowMs : Int) (id : String) (u : TaskUpdates) :
    List Task → Except TMError Task × List Task
  | [] => (.error .notFoundError, [])
  | t :: rest =>
    if t.id == id then
      let merged := TaskManager.mergeUpdate nowMs t u
      let errors := Validation.validateTask merged
      if errors.isEmpty then (.ok merged, merged :: rest)
      else (.error (.validationError errors), t :: rest)
    else
      let r := TaskManager.updateTask nowMs id u rest
      (r.1, t :: r.2)

/-- Character-list prefix test (JavaScript `startsWith` over code units). -/
def leadsWith : List Char → List Char → Bool
  | [], _ => true
  | _ :: _, [] => false
  | a :: as, b :: bs => a == b && leadsWith as bs

/-- Character-list substring test. -/
def containsChars (pat : List Char) : List Char → Bool
  | [] => leadsWith pat []
  | c :: rest => leadsWith pat (c :: rest) || containsChars pat rest

/-- JavaScript `s.includes(pat)`. -/
def containsStr (s pat : String) : Bool :=
  containsChars pat.toList s.toList

/-- The per-task predicate of `TaskManager.searchTasks`: the search term
matched case-insensitively against title, description and each tag. -/
def TaskManager.taskMatches (searchTerm : String) (t : Task) : Bool :=
  containsStr (jsToLower t.title) searchTerm ||
  (match t.description with
   | some d => containsStr (jsToLower d) searchTerm
   | none => false) ||
  t.tags.any (fun tag => containsStr (jsToLower tag) searchTerm)

/-- Embedding of `TaskManager.searchTasks`.  After validation passes, the
source calls `query.toLowerCase()`: on `null` or `undefined` (which the
validator accepts) this throws a `TypeError`, which the surrounding catch
re-wraps; it never reaches the filter. -/
def TaskManager.searchTasks (q : QueryInput) (tasks : List Task) :
    Except TMError (List Task) :=
  let errs := Validation.validateSearchQuery q
  if errs.isEmpty then
    match q with
    | .str s =>
      let searchTerm := jsTrim (jsToLower s)
      if searchTerm = "" then .ok tasks
      else .ok (tasks.filter (TaskManager.taskMatches searchTerm))
    | _ => .error (.typeError "Cannot read properties of null (reading toLowerCase)")
  else .error (.validationError errs)

/-- The due test of `ReminderService.checkReminders` for one task: the skip
guard (`reminderEnabled`, `reminderTime` set, not yet notified, not
completed) followed by the one-minute window on `reminderTime - now`. -/
def ReminderService.dueForReminder (nowMs : Int) (t : Task) : Bool :=
  if !t.reminderEnabled || t.reminderTime.isNone || t.reminderNotified ||
      t.status == "completed" then
    false
  else
    let timeDiff := t.reminderTime.getD 0 - nowMs
    decide (timeDiff ≤ 60000) && decide (timeDiff > -60000)

/-- Embedding of `ReminderService.markAsNotified` on a parsed collection:
set `reminderNotified` on the first record with the given id. -/
def ReminderService.markAsNotified (taskId : String) : List Task → List Task
  | [] => []
  | t :: rest =>
    if t.id == taskId then { t with reminderNotified := true } :: rest
    else t :: ReminderService.markAsNotified taskId rest

/-- The scan loop of `ReminderService.checkReminders`: iterate over the
snapshot read at the start of the tick while threading the stored
collection, which each `markAsNotified` re-reads and re-writes.  Returns
the ids notified during the tick and the final stored collection. -/
def ReminderService.checkLoop (nowMs : Int) :
    List Task → List Task → List String × List Task
  | [], store => ([], store)
  | t :: rest, store =>
    if ReminderService.dueForReminder nowMs t then
      let r := ReminderService.checkLoop nowMs rest
        (ReminderService.markAsNotified t.id store)
      (t.id :: r.1, r.2)
    else
      ReminderService.checkLoop nowMs rest store

/-- Embedding of one `ReminderService.checkReminders` tick over a stored
collection: the snapshot and the initial store are the same read. -/
def ReminderService.checkReminders (nowMs : Int) (tasks : List Task) :
    List String × List Task :=
  ReminderService.checkLoop nowMs tasks tasks

/-- The effect of a tick on one record, used to describe `checkLoop`. -/
def ReminderService.markIfDue (nowMs : Int) (t : Task) : Task :=
  if ReminderService.dueForReminder nowMs t then { t with reminderNotified := true }
  else t

/-- Ascending order on reminder times, the order produced by the
`(a, b) => timeA - timeB` comparator of `getUpcomingReminders`. -/
def remindBefore (a b : Task) : Prop :=
  a.reminderTime.getD 0 ≤ b.reminderTime.getD 0

instance : DecidableRel remindBefore :=
  fun a b => inferInstanceAs (Decidable (a.reminderTime.getD 0 ≤ b.reminderTime.getD 0))

instance : IsTotal Task remindBefore :=
  ⟨fun a b => Int.le_total (a.reminderTime.getD 0) (b.reminderTime.getD 0)⟩

instance : IsTrans Task remindBefore :=
  ⟨fun a _ c hab hbc =>
    show a.reminderTime.getD 0 ≤ c.reminderTime.getD 0 from Int.le_trans hab hbc⟩

/-- Embedding of `ReminderService.getUpcomingReminders`: filter on reminder
enabled, reminder time set, not completed and `reminderTime > now`, then
sort ascending by reminder time.  The source does not consult
`reminderNotified` here. -/
def ReminderService.getUpcomingReminders (nowMs : Int) (tasks : List Task) : List Task :=
  List.insertionSort remindBefore
    (tasks.filter (fun t =>
      if !t.reminderEnabled || t.reminderTime.isNone || t.status == "completed" then
        false
      else
        decide (nowMs < t.reminderTime.getD 0)))

/-- Whether a task-manager call failed with a `ValidationError`. -/
def isValidationErrorRes (r : Except TMError (List Task)) : Bool :=
  match r with
  | .error (.validationError _) => true
  | _ => false

/-! Helper lemmas about the embedded operations. -/

/-- The merge step never changes the record's id. -/
lemma mergeUpdate_id (nowMs : Int) (old : Task) (u : TaskUpdates) :
    (TaskManager.mergeUpdate nowMs old u).id = old.id := by
  unfold TaskManager.mergeUpdate
  cases hc : (match u.reminderTime with
    | some (some rt) => decide (some rt ≠ old.reminderTime)
    | _ => false) <;> simp [hc]

/-- The merge step never changes the record's creation timestamp. -/
lemma mergeUpdate_createdAt (nowMs : Int) (old : Task) (u : TaskUpdates) :
    (TaskManager.mergeUpdate nowMs old u).createdAt = old.createdAt := by
  unfold TaskManager.mergeUpdate
  cases hc : (match u.reminderTime with
    | some (some rt) => decide (some rt ≠ old.reminderTime)
    | _ => false) <;> simp [hc]

/-- The merge step stamps the current time into `updatedAt`. -/
lemma mergeUpdate_updatedAt (nowMs : Int) (old : Task) (u : TaskUpdates) :
    (TaskManager.mergeUpdate nowMs old u).updatedAt = nowMs := by
  unfold TaskManager.mergeUpdate
  cases hc : (match u.reminderTime with
    | some (some rt) => decide (some rt ≠ old.reminderTime)
    | _ => false) <;> simp [hc]

/-- A successful update found a record with the requested id and returned
its validated merge. -/
lemma updateTask_ok (nowMs : Int) (id : String) (u : TaskUpdates)
    (tasks : List Task) (t' : Task) (store' : List Task)
    (h : TaskManager.updateTask nowMs id u tasks = (Except.ok t', store')) :
    ∃ old, TaskManager.findTask id tasks = some old ∧ old ∈ tasks ∧ old.id = id ∧
      t' = TaskManager.mergeUpdate nowMs old u ∧
      Validation.validateTask (TaskManager.mergeUpdate nowMs old u) = [] := by
  induction tasks generalizing store' with
  | nil => simp [TaskManager.updateTask] at h
  | cons t rest ih =>
    rw [TaskManager.updateTask] at h
    by_cases hid : (t.id == id) = true
    · rw [if_pos hid] at h
      simp only at h
      cases hv : (Validation.validateTask (TaskManager.mergeUpdate nowMs t u)).isEmpty with
      | true =>
        rw [if_pos hv] at h
        obtain ⟨h1, _⟩ := Prod.mk.injEq .. ▸ h
        refine ⟨t, ?_, List.mem_cons_self t rest, by simpa using hid,
          (Except.ok.injEq .. ▸ h1).symm, ?_⟩
        · rw [TaskManager.findTask, if_pos hid]
        · cases hve : Validation.validateTask (TaskManager.mergeUpdate nowMs t u) with
          | nil => rfl
          | cons a l => rw [hve] at hv; simp [List.isEmpty] at hv
      | false =>
        rw [if_neg (by simp [hv])] at h
        exact absurd (Prod.mk.injEq .. ▸ h).1 (by simp)
    · rw [if_neg hid] at h
      simp only at h
      obtain ⟨h1, h2⟩ := Prod.mk.injEq .. ▸ h
      obtain ⟨old, hfind, hmem, hoid, ht', hval⟩ :=
        ih ((TaskManager.updateTask nowMs id u rest).2)
          ((Prod.ext_iff).2 ⟨h1, rfl⟩)
      exact ⟨old, by rw [TaskManager.findTask, if_neg hid]; exact hfind,
        List.mem_cons_of_mem t hmem, hoid, ht', hval⟩

/-- Marking passes unchanged over a prefix holding no record with the id. -/
lemma markAsNotified_append (taskId : String) (xs ys : List Task)
    (h : ∀ x ∈ xs, x.id ≠ taskId) :
    ReminderService.markAsNotified taskId (xs ++ ys) =
      xs ++ ReminderService.markAsNotified taskId ys := by
  induction xs with
  | nil => rfl
  | cons x xs ih =>
    rw [List.cons_append, ReminderService.markAsNotified,
      if_neg (by simpa using h x (List.mem_cons_self x xs)), List.cons_append]
    rw [ih (fun y hy => h y (List.mem_cons_of_mem x hy))]

/-- Marking the head record with its own id. -/
lemma markAsNotified_cons_self (t : Task) (rest : List Task) :
    ReminderService.markAsNotified t.id (t :: rest) =
      { t with reminderNotified := true } :: rest := by
  rw [ReminderService.markAsNotified, if_pos (by simp)]

/-- The scan loop over a snapshot equal to the tail of the store: when ids
are unique, the tick notifies exactly the snapshot's due tasks and flips
exactly their `reminderNotified` flags. -/
lemma checkLoop_spec (nowMs : Int) (snap : List Task) :
    ∀ done : List Task, ((done ++ snap).map (fun t => t.id)).Nodup →
    ReminderService.checkLoop nowMs snap (done ++ snap) =
      ((snap.filter (ReminderService.dueForReminder nowMs)).map (fun t => t.id),
        done ++ snap.map (ReminderService.markIfDue nowMs)) := by
  induction snap with
  | nil => intro done _; simp [ReminderService.checkLoop]
  | cons t rest ih =>
    intro done hN
    cases hdue : ReminderService.dueForReminder nowMs t with
    | false =>
      rw [ReminderService.checkLoop, if_neg (by simp [hdue])]
      have hsplit : done ++ t :: rest = (done ++ [t]) ++ rest := by simp
      rw [hsplit, ih (done ++ [t]) (by simpa using hN)]
      simp [hdue, ReminderService.markIfDue]
    | true =>
      rw [ReminderService.checkLoop]
      simp only [hdue, if_true]
      have hnotin : ∀ x ∈ done, x.id ≠ t.id := by
        intro x hx hEq
        have hd : List.Disjoint (done.map (fun t => t.id))
            ((t :: rest).map (fun t => t.id)) := by
          refine List.disjoint_of_nodup_append ?_
          rw [← List.map_append]; exact hN
        exact hd (List.mem_map.2 ⟨x, hx, rfl⟩) (by simp [hEq])
      rw [markAsNotified_append t.id done (t :: rest) hnotin,
        markAsNotified_cons_self]
      have hsplit : done ++ { t with reminderNotified := true } :: rest =
          (done ++ [{ t with reminderNotified := true }]) ++ rest := by simp
      have ihx := ih (done ++ [({ t with reminderNotified := true } : Task)])
        (by simpa using hN)
      rw [hsplit, ihx]
      simp [hdue, ReminderService.markIfDue]

/-- One tick of `checkReminders` over a store with unique ids: it notifies
exactly the due tasks and marks exactly them as notified. -/
lemma checkReminders_spec (nowMs : Int) (tasks : List Task)
    (h : (tasks.map (fun t => t.id)).Nodup) :
    ReminderService.checkReminders nowMs tasks =
      ((tasks.filter (ReminderService.dueForReminder nowMs)).map (fun t => t.id),
        tasks.map (ReminderService.markIfDue nowMs)) :=
  checkLoop_spec nowMs tasks [] (by simpa using h)

/-- A well-formed stored task used to instantiate the theorems. -/
def baseTask : Task :=
  { id := "t1", title := "Buy milk", description := some "get milk at the store",
    status := "pending", priority := "medium", dueDate := none, dueTime := none,
    reminderEnabled := true, reminderTime := some 100000, reminderMinutes := 5,
    reminderNotified := false, tags := ["home", "milk"], createdAt := 0, updatedAt := 0 }

/-- Fixture for the due-window claim: armed reminder at 1000 ms. -/
def tkC1 : Task := { baseTask with reminderTime := some 1000 }

/-- C1: for a task with `reminderEnabled`, a set `reminderTime`,
`reminderNotified = false` and status not completed, the scan's due test at
time `now` succeeds exactly when `-60s < reminderTime - now ≤ 60s`; in
particular `reminderTime = now - 30s` is due, while `reminderTime =
now - 90s` is not due and stays not due at every later scan time. -/
theorem reminder_due_window (t : Task) (nowMs rt : Int)
    (hEn : t.reminderEnabled = true) (hTime : t.reminderTime = some rt)
    (hNot : t.reminderNotified = false) (hSt : t.status ≠ "completed") :
    (ReminderService.dueForReminder nowMs t = true ↔
      -60000 < rt - nowMs ∧ rt - nowMs ≤ 60000) ∧
    (rt = nowMs - 30000 → ReminderService.dueForReminder nowMs t = true) ∧
    (rt = nowMs - 90000 → ∀ later, nowMs ≤ later →
      ReminderService.dueForReminder later t = false) ∧
    (∀ tasks, (tasks.map (fun x => x.id)).Nodup → t ∈ tasks →
      (t.id ∈ (ReminderService.checkReminders nowMs tasks).1 ↔
        -60000 < rt - nowMs ∧ rt - nowMs ≤ 60000)) := by
  have key : ∀ m : Int, (ReminderService.dueForReminder m t = true ↔
      -60000 < rt - m ∧ rt - m ≤ 60000) := by
    intro m
    rw [ReminderService.dueForReminder]
    simp only [hEn, hTime, hNot, Bool.not_true, Option.isNone_some, Bool.false_or,
      Bool.or_false, Option.getD_some]
    rw [if_neg (by simp [hSt])]
    simp only [Bool.and_eq_true, decide_eq_true_eq]
    omega
  refine ⟨key nowMs, fun h => (key nowMs).2 (by omega), fun h later hle => ?_, ?_⟩
  · refine Bool.eq_false_iff.mpr (fun hc => ?_)
    have := (key later).1 hc
    omega
  · intro tasks hN hMem
    rw [checkReminders_spec nowMs tasks hN]
    constructor
    · intro hin
      obtain ⟨uu, hu, hid⟩ := List.mem_map.1 hin
      have hut : uu = t :=
        List.inj_on_of_nodup_map hN (List.mem_filter.1 hu).1 hMem hid
      have hdt : ReminderService.dueForReminder nowMs t = true :=
        hut ▸ (List.mem_filter.1 hu).2
      exact (key nowMs).1 hdt
    · intro hw
      exact List.mem_map.2 ⟨t, List.mem_filter.2 ⟨hMem, (key nowMs).2 hw⟩, rfl⟩

/-- Witness for C1 at a concrete armed task and scan time. -/
theorem reminder_due_window_witness :
    (ReminderService.dueForReminder 0 tkC1 = true ↔
      -60000 < (1000 : Int) - 0 ∧ (1000 : Int) - 0 ≤ 60000) ∧
    ((1000 : Int) = 0 - 30000 → ReminderService.dueForReminder 0 tkC1 = true) ∧
    ((1000 : Int) = 0 - 90000 → ∀ later, (0 : Int) ≤ later →
      ReminderService.dueForReminder later tkC1 = false) ∧
    (∀ tasks, (tasks.map (fun x => x.id)).Nodup → tkC1 ∈ tasks →
      (tkC1.id ∈ (ReminderService.checkReminders 0 tasks).1 ↔
        -60000 < (1000 : Int) - 0 ∧ (1000 : Int) - 0 ≤ 60000)) :=
  reminder_due_window tkC1 0 1000 rfl rfl rfl (by decide)

/-- Fixture for the skip-guard claim: reminder disabled. -/
def tkC9 : Task := { baseTask with reminderEnabled := false }

/-- C9: on a scan tick over a collection with unique ids, a task with the
reminder disabled, or no reminder time, or already notified, or completed,
is never notified and its record is left in the store unmodified. -/
theorem checkReminders_skips (nowMs : Int) (tasks : List Task) (t : Task)
    (hN : (tasks.map (fun x => x.id)).Nodup) (hMem : t ∈ tasks)
    (hSkip : t.reminderEnabled = false ∨ t.reminderTime = none ∨
      t.reminderNotified = true ∨ t.status = "completed") :
    t.id ∉ (ReminderService.checkReminders nowMs tasks).1 ∧
    t ∈ (ReminderService.checkReminders nowMs tasks).2 := by
  have hdue : ReminderService.dueForReminder nowMs t = false := by
    rcases hSkip with h | h | h | h <;> simp [ReminderService.dueForReminder, h]
  rw [checkReminders_spec nowMs tasks hN]
  constructor
  · intro hmemid
    obtain ⟨u, hu, hid⟩ := List.mem_map.1 hmemid
    have humem : u ∈ tasks := (List.mem_filter.1 hu).1
    have hudue : ReminderService.dueForReminder nowMs u = true := (List.mem_filter.1 hu).2
    have hut : u = t := List.inj_on_of_nodup_map hN humem hMem hid
    rw [hut, hdue] at hudue
    exact Bool.false_ne_true hudue
  · exact List.mem_map.2 ⟨t, hMem, by simp [ReminderService.markIfDue, hdue]⟩

/-- Witness for C9: a disabled-reminder task in a singleton store. -/
theorem checkReminders_skips_witness :
    tkC9.id ∉ (ReminderService.checkReminders 100000 [tkC9]).1 ∧
    tkC9 ∈ (ReminderService.checkReminders 100000 [tkC9]).2 :=
  checkReminders_skips 100000 [tkC9] tkC9 (by simp) (by simp) (Or.inl rfl)

/-- Fixture for the upcoming-reminders claim: already notified, reminder
time still in the future of the query instant 0. -/
def tkC2 : Task := { baseTask with reminderTime := some 100, reminderNotified := true }

/-- C2 counterexample: `getUpcomingReminders` returns a task whose
reminder has already been notified, contradicting the claim that only
not-yet-notified (armed) tasks are returned. -/
theorem getUpcomingReminders_counterexample :
    ReminderService.getUpcomingReminders 0 [tkC2] = [tkC2] ∧
    tkC2.reminderNotified = true :=
  ⟨rfl, rfl⟩

/-- The filter guard of `getUpcomingReminders`, characterized. -/
lemma upcomingGuard_iff (nowMs : Int) (t : Task) :
    ((if !t.reminderEnabled || t.reminderTime.isNone || t.status == "completed" then
        false
      else
        decide (nowMs < t.reminderTime.getD 0)) = true) ↔
    (t.reminderEnabled = true ∧ t.reminderTime.isSome = true ∧
      t.status ≠ "completed" ∧ nowMs < t.reminderTime.getD 0) := by
  cases hE : t.reminderEnabled <;> cases hT : t.reminderTime <;>
    by_cases hS : t.status = "completed" <;> simp [hE, hT, hS]

/-- C2 amended: `getUpcomingReminders` returns exactly the tasks with the
reminder enabled, a reminder time set, status not completed and
`reminderTime > now` (whether or not already notified), sorted ascending
by reminder time; the stored collection is not modified (the operation is
a pure query of the store). -/
theorem getUpcomingReminders_spec (nowMs : Int) (tasks : List Task) :
    (∀ t, t ∈ ReminderService.getUpcomingReminders nowMs tasks ↔
      t ∈ tasks ∧ t.reminderEnabled = true ∧ t.reminderTime.isSome = true ∧
        t.status ≠ "completed" ∧ nowMs < t.reminderTime.getD 0) ∧
    (ReminderService.getUpcomingReminders nowMs tasks).Sorted remindBefore := by
  constructor
  · intro t
    rw [ReminderService.getUpcomingReminders, List.mem_insertionSort, List.mem_filter,
      upcomingGuard_iff]
  · exact List.sorted_insertionSort remindBefore _

/-- C3 counterexample: a present but malformed payload makes the read
fail with a storage error instead of yielding the empty collection. -/
theorem storage_malformed_counterexample :
    Storage.getTasks (Medium.store (some RawPayload.malformed)) ≠
      Except.ok ([] : List Task) ∧
    Storage.getTasks (Medium.store (some RawPayload.malformed)) =
      Except.error (TMError.storageError "Failed to read tasks from storage") :=
  ⟨fun h => by simp [Storage.getTasks] at h, rfl⟩

/-- C3 amended: an absent key reads as the empty collection; a parsable
payload reads as its tasks; a malformed payload and an unavailable medium
both fail the read with a storage error; a write failure propagates and a
successful write replaces the blob. -/
theorem storage_read_write_spec (tasks : List Task) (p : Option RawPayload) :
    Storage.getTasks (Medium.store none) = Except.ok ([] : List Task) ∧
    Storage.getTasks (Medium.store (some (RawPayload.parsable tasks))) = Except.ok tasks ∧
    Storage.getTasks (Medium.store (some RawPayload.malformed)) =
      Except.error (TMError.storageError "Failed to read tasks from storage") ∧
    Storage.getTasks Medium.unavailable =
      Except.error (TMError.storageError "Failed to read tasks from storage") ∧
    Storage.saveTasks tasks Medium.unavailable =
      Except.error (TMError.storageError "Failed to save tasks to storage") ∧
    Storage.saveTasks tasks (Medium.store p) =
      Except.ok (Medium.store (some (RawPayload.parsable tasks))) :=
  ⟨rfl, rfl, rfl, rfl, rfl, rfl⟩

/-- Fixture for the identity-preservation claim. -/
def tkC4 : Task := { baseTask with createdAt := 1, updatedAt := 2 }

/-- C4: a successful update keeps the record's `id` and `createdAt` and
stamps `updatedAt` with the call time, whatever the payload contains; under
a clock that has advanced past the stored timestamps, `updatedAt` ends at
least `createdAt` and strictly after its previous value. -/
theorem updateTask_preserves_identity (nowMs : Int) (id : String) (u : TaskUpdates)
    (tasks : List Task) (t' : Task) (store' : List Task)
    (h : TaskManager.updateTask nowMs id u tasks = (Except.ok t', store'))
    (hclock : ∀ old ∈ tasks, old.createdAt ≤ nowMs ∧ old.updatedAt < nowMs) :
    ∃ old ∈ tasks, old.id = id ∧ t'.id = old.id ∧ t'.createdAt = old.createdAt ∧
      t'.updatedAt = nowMs ∧ t'.createdAt ≤ t'.updatedAt ∧
      old.updatedAt < t'.updatedAt := by
  obtain ⟨old, _, hmem, hoid, ht', _⟩ := updateTask_ok nowMs id u tasks t' store' h
  obtain ⟨hc1, hc2⟩ := hclock old hmem
  subst ht'
  refine ⟨old, hmem, hoid, mergeUpdate_id nowMs old u, mergeUpdate_createdAt nowMs old u,
    mergeUpdate_updatedAt nowMs old u, ?_, ?_⟩
  · rw [mergeUpdate_createdAt, mergeUpdate_updatedAt]; exact hc1
  · rw [mergeUpdate_updatedAt]; exact hc2

/-- Witness for C4: an empty update payload on a stored task. -/
theorem updateTask_preserves_identity_witness :
    ∃ old ∈ [tkC4], old.id = "t1" ∧
      (TaskManager.mergeUpdate 5 tkC4 {}).id = old.id ∧
      (TaskManager.mergeUpdate 5 tkC4 {}).createdAt = old.createdAt ∧
      (TaskManager.mergeUpdate 5 tkC4 {}).updatedAt = 5 ∧
      (TaskManager.mergeUpdate 5 tkC4 {}).createdAt ≤
        (TaskManager.mergeUpdate 5 tkC4 {}).updatedAt ∧
      old.updatedAt < (TaskManager.mergeUpdate 5 tkC4 {}).updatedAt :=
  updateTask_preserves_identity 5 "t1" {} [tkC4] (TaskManager.mergeUpdate 5 tkC4 {})
    [TaskManager.mergeUpdate 5 tkC4 {}] (by decide)
    (by intro old hold
        rw [List.mem_singleton] at hold
        subst hold
        exact ⟨by decide, by decide⟩)

/-- Fixture for the invalid-merge claim: empties the title. -/
def uC5 : TaskUpdates := { title := some "" }

/-- C5: when the record with the requested id exists and the merged record
fails validation, the update fails with a validation error carrying the
collected reasons, and the stored collection is returned exactly as it
was. -/
theorem updateTask_invalid_atomic (nowMs : Int) (id : String) (u : TaskUpdates)
    (tasks : List Task) (old : Task)
    (hfind : TaskManager.findTask id tasks = some old)
    (hval : Validation.validateTask (TaskManager.mergeUpdate nowMs old u) ≠ []) :
    TaskManager.updateTask nowMs id u tasks =
      (Except.error (TMError.validationError
        (Validation.validateTask (TaskManager.mergeUpdate nowMs old u))), tasks) := by
  induction tasks with
  | nil => simp [TaskManager.findTask] at hfind
  | cons t rest ih =>
    rw [TaskManager.findTask] at hfind
    by_cases hid : (t.id == id) = true
    · rw [if_pos hid] at hfind
      injection hfind with he
      subst he
      cases hv : Validation.validateTask (TaskManager.mergeUpdate nowMs t u) with
      | nil => exact absurd hv hval
      | cons a l => simp [TaskManager.updateTask, hid, hv]
    · rw [if_neg hid] at hfind
      have hrec := ih hfind
      simp [TaskManager.updateTask, hid, hrec]

/-- Witness for C5: an update that blanks the title is rejected and the
collection is untouched. -/
theorem updateTask_invalid_atomic_witness :
    TaskManager.updateTask 7 "t1" uC5 [baseTask] =
      (Except.error (TMError.validationError
        (Validation.validateTask (TaskManager.mergeUpdate 7 baseTask uC5))), [baseTask]) :=
  updateTask_invalid_atomic 7 "t1" uC5 [baseTask] baseTask (by decide) (by decide)

/-- Fixture for the reminder-reset claim: already notified. -/
def tkC6 : Task := { baseTask with reminderTime := some 1000, reminderNotified := true }

/-- Fixture update clearing `reminderTime` to `null`. -/
def uC6 : TaskUpdates := { reminderTime := some none }

/-- C6 counterexample: clearing `reminderTime` to `null` changes the
stored reminder time but does not reset `reminderNotified`, because the
reset guard requires a truthy new `reminderTime`. -/
theorem reminder_clear_counterexample :
    (TaskManager.updateTask 5 "t1" uC6 [tkC6]).1 =
      Except.ok (TaskManager.mergeUpdate 5 tkC6 uC6) ∧
    (TaskManager.mergeUpdate 5 tkC6 uC6).reminderTime = none ∧
    tkC6.reminderTime = some 1000 ∧
    (TaskManager.mergeUpdate 5 tkC6 uC6).reminderNotified = true :=
  ⟨by decide, by decide, by decide, by decide⟩

/-- C6 amended: a successful update whose payload supplies a non-null
`reminderTime` different from the stored one leaves the updated record
with `reminderNotified = false`. -/
theorem updateTask_resets_notified (nowMs : Int) (id : String) (u : TaskUpdates)
    (tasks : List Task) (t' : Task) (store' : List Task) (old : Task) (rt : Int)
    (h : TaskManager.updateTask nowMs id u tasks = (Except.ok t', store'))
    (hfind : TaskManager.findTask id tasks = some old)
    (hu : u.reminderTime = some (some rt))
    (hne : old.reminderTime ≠ some rt) :
    t'.reminderNotified = false := by
  obtain ⟨old2, hfind2, _, _, ht', _⟩ := updateTask_ok nowMs id u tasks t' store' h
  rw [hfind] at hfind2
  injection hfind2 with he
  subst he
  subst ht'
  unfold TaskManager.mergeUpdate
  rw [hu]
  rw [if_pos (by simp only [decide_eq_true_eq]; exact fun hh => hne hh.symm)]

/-- Witness for C6's amended claim: moving the reminder time of a
notified task re-arms it. -/
theorem updateTask_resets_notified_witness :
    (TaskManager.mergeUpdate 9 tkC6 { reminderTime := some (some 2000) }).reminderNotified
      = false :=
  updateTask_resets_notified 9 "t1" { reminderTime := some (some 2000) } [tkC6]
    (TaskManager.mergeUpdate 9 tkC6 { reminderTime := some (some 2000) })
    [TaskManager.mergeUpdate 9 tkC6 { reminderTime := some (some 2000) }] tkC6 2000
    (by decide) (by decide) rfl (by decide)

/-- C7 counterexample: a `null` search query is a non-string query, yet
the call does not fail with a validation error (the validator accepts
`null`; the crash comes from `toLowerCase`). -/
theorem search_null_query_counterexample :
    (TaskManager.searchTasks QueryInput.null []).isOk = false ∧
    isValidationErrorRes (TaskManager.searchTasks QueryInput.null []) = false :=
  ⟨rfl, rfl⟩

/-- C7 amended: a string query, after lowercasing and trimming, selects
exactly the tasks whose title, description or some tag contains it
(case-insensitively), with an empty or whitespace-only query returning the
full collection; a non-string query other than `null`/`undefined` fails
with a validation error, while `null` and `undefined` fail with a type
error from the lowercase call. -/
theorem searchTasks_spec (s : String) (tasks : List Task) (t : Task) :
    TaskManager.searchTasks (QueryInput.str s) tasks =
      Except.ok (if jsTrim (jsToLower s) = "" then tasks
        else tasks.filter (TaskManager.taskMatches (jsTrim (jsToLower s)))) ∧
    (t ∈ tasks.filter (TaskManager.taskMatches (jsTrim (jsToLower s))) ↔
      t ∈ tasks ∧ TaskManager.taskMatches (jsTrim (jsToLower s)) t = true) ∧
    TaskManager.searchTasks QueryInput.nonString tasks =
      Except.error (TMError.validationError ["Search query must be a string"]) ∧
    TaskManager.searchTasks QueryInput.null tasks =
      Except.error (TMError.typeError "Cannot read properties of null (reading toLowerCase)") ∧
    TaskManager.searchTasks QueryInput.undef tasks =
      Except.error (TMError.typeError "Cannot read properties of null (reading toLowerCase)") := by
  refine ⟨?_, List.mem_filter, rfl, rfl, rfl⟩
  by_cases h : jsTrim (jsToLower s) = "" <;>
    simp [TaskManager.searchTasks, Validation.validateSearchQuery, h]

/-- Fixture update carrying an untrimmed title. -/
def uC8 : TaskUpdates := { title := some "  padded  " }

/-- C8 counterexample: an update payload with surrounding whitespace in
the title is persisted untrimmed (the update path trims only tags). -/
theorem update_not_trimmed_counterexample :
    (TaskManager.updateTask 5 "t1" uC8 [baseTask]).1 =
      Except.ok (TaskManager.mergeUpdate 5 baseTask uC8) ∧
    (TaskManager.mergeUpdate 5 baseTask uC8).title = "  padded  " ∧
    jsTrim "  padded  " ≠ "  padded  " :=
  ⟨rfl, rfl, by decide⟩

/-- Tags of a merged record when the payload supplies a tags array. -/
lemma mergeUpdate_tags (nowMs : Int) (old : Task) (u : TaskUpdates) (v : List String)
    (hu : u.tags = some (some v)) :
    (TaskManager.mergeUpdate nowMs old u).tags =
      (v.map jsTrim).filter (fun t => t ≠ "") := by
  unfold TaskManager.mergeUpdate
  cases hc : (match u.reminderTime with
    | some (some rt) => decide (some rt ≠ old.reminderTime)
    | _ => false) <;> simp [hc, hu]

/-- C8 amended: `addTask` stores the title and description trimmed and its
tag list trimmed with empties dropped; `updateTask` normalizes the tag
list the same way when one is supplied, but merges the other string fields
exactly as given in the payload. -/
theorem task_trimming_spec (nowMs : Int) (newId : String) (d : TaskInput)
    (old : Task) (u : TaskUpdates) (v : List String)
    (hu : u.tags = some (some v)) :
    (TaskManager.buildTask nowMs newId d).title = jsTrim d.title ∧
    (TaskManager.buildTask nowMs newId d).description =
      some (jsTrim (d.description.getD "")) ∧
    (∀ tag ∈ (TaskManager.buildTask nowMs newId d).tags,
      tag ≠ "" ∧ ∃ s ∈ d.tags.getD [], tag = jsTrim s) ∧
    (∀ tag ∈ (TaskManager.mergeUpdate nowMs old u).tags,
      tag ≠ "" ∧ ∃ s ∈ v, tag = jsTrim s) := by
  refine ⟨rfl, ?_, ?_, ?_⟩
  · cases hd : d.description with
    | none => simp [TaskManager.buildTask, hd]; decide
    | some s => by_cases h : jsTrim s = "" <;> simp [TaskManager.buildTask, hd, h]
  · intro tag htag
    cases hdt : d.tags with
    | none => simp [TaskManager.buildTask, hdt] at htag
    | some ts =>
      simp only [TaskManager.buildTask, hdt, List.mem_filter, List.mem_map,
        decide_eq_true_eq] at htag
      obtain ⟨⟨s, hs, he⟩, hne⟩ := htag
      exact ⟨hne, s, by simp [hdt, hs], he.symm⟩
  · intro tag htag
    rw [mergeUpdate_tags nowMs old u v hu] at htag
    simp only [List.mem_filter, List.mem_map, decide_eq_true_eq] at htag
    obtain ⟨⟨s, hs, he⟩, hne⟩ := htag
    exact ⟨hne, s, hs, he.symm⟩

/-- Witness for C8's amended claim at a concrete input and payload. -/
theorem task_trimming_spec_witness :
    (TaskManager.buildTask 0 "id1" { title := "  hi  ", tags := some ["  a  ", " "] }).title =
      jsTrim "  hi  " ∧
    (TaskManager.buildTask 0 "id1" { title := "  hi  ", tags := some ["  a  ", " "] }).description =
      some (jsTrim (( { title := "  hi  ", tags := some ["  a  ", " "] } : TaskInput).description.getD "")) ∧
    (∀ tag ∈ (TaskManager.buildTask 0 "id1"
        { title := "  hi  ", tags := some ["  a  ", " "] }).tags,
      tag ≠ "" ∧ ∃ s ∈ (( { title := "  hi  ", tags := some ["  a  ", " "] } : TaskInput).tags.getD []),
        tag = jsTrim s) ∧
    (∀ tag ∈ (TaskManager.mergeUpdate 3 baseTask { tags := some (some ["  b  "]) }).tags,
      tag ≠ "" ∧ ∃ s ∈ ["  b  "], tag = jsTrim s) :=
  task_trimming_spec 0 "id1" { title := "  hi  ", tags := some ["  a  ", " "] }
    baseTask { tags := some (some ["  b  "]) } ["  b  "] rfl

/-- Fixture input whose built task fails validation (blank title). -/
def dC10 : TaskInput := { title := "   " }

/-- C10: when the task built from the input fails validation, `addTask`
fails with a validation error carrying the collected reasons and the
stored collection is returned exactly as it was — the invalid task is
never appended or persisted. -/
theorem addTask_invalid_atomic (nowMs : Int) (newId : String) (d : TaskInput)
    (tasks : List Task)
    (hval : Validation.validateTask (TaskManager.buildTask nowMs newId d) ≠ []) :
    TaskManager.addTask nowMs newId d tasks =
      (Except.error (TMError.validationError
        (Validation.validateTask (TaskManager.buildTask nowMs newId d))), tasks) := by
  unfold TaskManager.addTask
  cases hv : Validation.validateTask (TaskManager.buildTask nowMs newId d) with
  | nil => exact absurd hv hval
  | cons a l => simp [hv]

/-- Witness for C10: an all-whitespace title is rejected without touching
the store. -/
theorem addTask_invalid_atomic_witness :
    TaskManager.addTask 0 "id1" dC10 [baseTask] =
      (Except.error (TMError.validationError
        (Validation.validateTask (TaskManager.buildTask 0 "id1" dC10))), [baseTask]) :=
  addTask_invalid_atomic 0 "id1" dC10 [baseTask] (by decide)

end TaskApp
